import Mathlib

/-!
Verification of the dispatch core of the playwright-mcp fork.

Each definition below is a shallow embedding of a function of the
repository (file and symbol named in its doc comment).  Definitions whose
implementation is not part of the repository's source tree (the capability
filter that builds the advertised tool set, the Tab's navigation-event
subscription, and the driver-side wait/race mechanism) are modelled from
the specification and say so in their doc comment.
-/

/-! ## Tool registry (src/tools.ts, src/tools/tool.ts)

A tool descriptor, as produced by `defineTool`: a unique name plus the
capability required to enable the tool. -/

structure ToolDescriptor where
  name : String
  capability : String
  deriving Repr, DecidableEq

/-- Modelled from the spec: the capability filter that builds the active
tool set is not under src/ (only the registration lists in
`src/tools.ts` are).  Spec: "`buildActiveSet(capabilitySet)` returns the
subset of descriptors whose `requiredCapability` is in
`capabilitySet ∪ {core}`, preserving declaration order". -/
def buildActiveSet (capabilitySet : List String) (tools : List ToolDescriptor) :
    List ToolDescriptor :=
  tools.filter fun t => capabilitySet.contains t.capability || t.capability == "core"

/-- Modelled from the spec: "the set of tool names visible to a given
session is exactly `ToolRegistry.buildActiveSet(capabilitySet)`, exposed
via a list-tools query". -/
def advertisedToolNames (capabilitySet : List String) (tools : List ToolDescriptor) :
    List String :=
  (buildActiveSet capabilitySet tools).map (fun t => t.name)

/-- The six descriptors registered by `src/tools/networkInterception.ts`
(default export), in declaration order; every one requires the `network`
capability. -/
def networkInterceptionTools : List ToolDescriptor :=
  [ ⟨"mcp__playwright__browser_route", "network"⟩,
    ⟨"mcp__playwright__browser_unroute", "network"⟩,
    ⟨"mcp__playwright__browser_wait_for_request", "network"⟩,
    ⟨"mcp__playwright__browser_wait_for_response", "network"⟩,
    ⟨"mcp__playwright__browser_get_requests", "network"⟩,
    ⟨"mcp__playwright__browser_get_responses", "network"⟩ ]

/-! ## URL filter matching (src/tools/networkInterception.ts)

`getRequests` and `getResponses` turn the caller's URL filter into a
JavaScript regular expression with `pattern.replace(/\x2a/g, ".*")` and
then run an unanchored `RegExp.test` against each logged URL.  The
embedding below covers patterns made of literal characters, `.` and `*`
(the characters the tool descriptions advertise); after the replacement,
`*` denotes the regex `.*` (any sequence) and `.` denotes any single
character. -/

inductive RegexTok where
  | lit : Char → RegexTok
  | anyChar : RegexTok
  | anyStar : RegexTok
  deriving Repr, DecidableEq

/-- `pattern.replace(/\x2a/g, ".*")` followed by regex parsing: each `*`
of the original pattern becomes `.*` (an any-sequence token), each `.`
is the regex any-character metacharacter, everything else is literal. -/
def globToRegex : List Char → List RegexTok
  | [] => []
  | c :: cs =>
      (if c = '*' then RegexTok.anyStar
       else if c = '.' then RegexTok.anyChar
       else RegexTok.lit c) :: globToRegex cs

/-- All suffixes of a character list, longest first (the candidate
remainders after `.*` consumes a prefix). -/
def suffixes : List Char → List (List Char)
  | [] => [[]]
  | x :: xs => (x :: xs) :: suffixes xs

/-- Does the token list match some prefix of `s`?  `.*` consumes an
arbitrary prefix, so it matches iff the rest of the tokens match some
suffix of the remaining input. -/
def matchHere : List RegexTok → List Char → Bool
  | [], _ => true
  | .lit _ :: _, [] => false
  | .lit c :: ts, x :: xs => c == x && matchHere ts xs
  | .anyChar :: _, [] => false
  | .anyChar :: ts, _ :: xs => matchHere ts xs
  | .anyStar :: ts, s => (suffixes s).any fun s2 => matchHere ts s2

/-- Unanchored `RegExp.test`: the token list matches starting at some
position of `s`. -/
def regexTest (toks : List RegexTok) (s : List Char) : Bool :=
  (suffixes s).any fun s2 => matchHere toks s2

/-- The URL filter predicate of `getRequests` / `getResponses`:
`new RegExp(filter.url.replace(/\x2a/g, ".*")).test(r.url())`. -/
def urlFilterMatches (pattern url : String) : Bool :=
  regexTest (globToRegex pattern.toList) url.toList

/-! A second matcher written from the spec's words, for comparison with
the source-derived filter above. -/

inductive GlobTok where
  | lit : Char → GlobTok
  | star : GlobTok
  | dstar : GlobTok
  deriving Repr, DecidableEq

/-- Follows the spec's words: parse a glob where `**` is one
across-segments wildcard and a lone `*` is a within-segment wildcard. -/
def globParseSpec : List Char → List GlobTok
  | [] => []
  | '*' :: '*' :: cs => GlobTok.dstar :: globParseSpec cs
  | '*' :: cs => GlobTok.star :: globParseSpec cs
  | c :: cs => GlobTok.lit c :: globParseSpec cs

/-- The suffixes reachable from `s` by consuming characters other than
`/`: the candidate remainders after a within-segment `*`. -/
def starSuffixes : List Char → List (List Char)
  | [] => [[]]
  | x :: xs => (x :: xs) :: (if x == '/' then [] else starSuffixes xs)

/-- Follows the spec's words: "`*` matches within a path segment
(never across `/`) and `**` matches across segments".  A `*` consumes a
`/`-free prefix, a `**` consumes an arbitrary prefix, and the whole
pattern must consume the whole URL. -/
def globMatchSpecToks : List GlobTok → List Char → Bool
  | [], [] => true
  | [], _ :: _ => false
  | .lit _ :: _, [] => false
  | .lit c :: ts, x :: xs => c == x && globMatchSpecToks ts xs
  | .star :: ts, s => (starSuffixes s).any fun s2 => globMatchSpecToks ts s2
  | .dstar :: ts, s => (suffixes s).any fun s2 => globMatchSpecToks ts s2

/-- Follows the spec's words: full-pattern glob match with
segment-respecting `*`. -/
def globMatchSpec (pattern url : String) : Bool :=
  globMatchSpecToks (globParseSpec pattern.toList) url.toList

/-! ## Request log filtering (src/tools/networkInterception.ts, getRequests) -/

/-- One entry of the per-tab request log, with the metadata the filters
inspect. -/
structure RequestEntry where
  url : String
  method : String
  resourceType : String
  deriving Repr, DecidableEq

/-- The optional filter object of `browser_get_requests`. -/
structure RequestFilter where
  url : Option String
  method : Option String
  resourceType : Option String
  deriving Repr, DecidableEq

/-- The action of `getRequests` (src/tools/networkInterception.ts:296-312):
starting from the full log (in arrival order), apply the URL-pattern
filter, then the method filter (case-insensitive comparison via
`toUpperCase`), then the resource-type filter, each only when supplied. -/
def getRequests (filter : RequestFilter) (log : List RequestEntry) :
    List RequestEntry :=
  let rs := log
  let rs := match filter.url with
    | some p => rs.filter fun r => urlFilterMatches p r.url
    | none => rs
  let rs := match filter.method with
    | some m => rs.filter fun r => r.method.toUpper == m.toUpper
    | none => rs
  match filter.resourceType with
  | some t => rs.filter fun r => r.resourceType == t
  | none => rs

/-- The conjunction of the supplied filter clauses, as one predicate. -/
def satisfiesFilter (filter : RequestFilter) (r : RequestEntry) : Bool :=
  (match filter.url with
    | some p => urlFilterMatches p r.url
    | none => true) &&
  (match filter.method with
    | some m => r.method.toUpper == m.toUpper
    | none => true) &&
  (match filter.resourceType with
    | some t => r.resourceType == t
    | none => true)

/-! ## Route decision application (src/tools/networkInterception.ts, route) -/

/-- The `fulfill` branch of a route handler object. -/
structure FulfillOptions where
  status : Option Nat
  body : Option String
  headers : Option (List (String × String))
  contentType : Option String
  deriving Repr, DecidableEq

/-- The `continue` branch of a route handler object. -/
structure ContinueOptions where
  url : Option String
  method : Option String
  headers : Option (List (String × String))
  postData : Option String
  deriving Repr, DecidableEq

/-- A route handler object as accepted by `browser_route`. -/
structure RouteHandler where
  abort : Option Bool
  fulfill : Option FulfillOptions
  cont : Option ContinueOptions
  deriving Repr, DecidableEq

/-- What the installed interception callback does to an intercepted
request: `route.abort()`, `route.fulfill(options)` (the options after the
content-type merge), or `route.continue(overrides?)`. -/
inductive RouteAction where
  | abort : RouteAction
  | fulfill : Option Nat → Option String → Option (List (String × String)) → RouteAction
  | cont : Option ContinueOptions → RouteAction
  deriving Repr, DecidableEq

/-- JavaScript object-property assignment `obj[k] = v`: replace the value
in place if the key exists, append otherwise. -/
def setKey (hs : List (String × String)) (k v : String) : List (String × String) :=
  if hs.any (fun p => p.1 == k) then
    hs.map fun p => if p.1 == k then (k, v) else p
  else
    hs ++ [(k, v)]

/-- The interception callback installed by `browser_route`
(src/tools/networkInterception.ts:72-89).  `abort` and `contentType` are
tested by JavaScript truthiness: `abort` must be `true`, a present but
empty `contentType` string is falsy.  When `contentType` is truthy it is
moved into the headers as the `content-type` key (creating an empty
headers object first if none was given). -/
def applyRoute (h : RouteHandler) : RouteAction :=
  if h.abort = some true then
    .abort
  else
    match h.fulfill with
    | some f =>
        match f.contentType with
        | some ct =>
            if ct = "" then
              .fulfill f.status f.body f.headers
            else
              .fulfill f.status f.body (some (setKey (f.headers.getD []) "content-type" ct))
        | none => .fulfill f.status f.body f.headers
    | none =>
        match h.cont with
        | some c => .cont (some c)
        | none => .cont none

/-! ## Frame context (src/tools/frameManagement.ts)

Frames are identified abstractly; a tab's ad-hoc `currentFrame` property
is an optional frame (absent = main frame). -/

/-- The per-tab frame state the frame tools read and write:
`(tab as any).currentFrame`. -/
structure TabFrameState where
  currentFrame : Option Nat
  deriving Repr, DecidableEq

/-- The action of `browser_switch_to_frame`
(src/tools/frameManagement.ts:122-151): `resolved` is the frame produced
by the selector/name/url/index lookup (`null` when nothing matched).  On
success the tab's `currentFrame` is set to it; otherwise the action
fails with "Frame not found". -/
def switchToFrame (resolved : Option Nat) (st : TabFrameState) :
    Except String TabFrameState :=
  match resolved with
  | some f => .ok { st with currentFrame := some f }
  | none => .error "Frame not found with the specified criteria"

/-- The action of `browser_switch_to_main_frame`
(src/tools/frameManagement.ts:179-191): `delete (tab as any).currentFrame`. -/
def switchToMainFrame (st : TabFrameState) : TabFrameState :=
  { st with currentFrame := none }

/-- The frame `browser_frame_evaluate` runs in when no explicit
selector/name/index argument is given
(src/tools/frameManagement.ts:316-317):
`(tab as any).currentFrame || tab.page.mainFrame()`. -/
def frameEvaluateTarget (explicit : Option Nat) (st : TabFrameState)
    (mainFrame : Nat) : Nat :=
  match explicit with
  | some f => f
  | none => st.currentFrame.getD mainFrame

/-- Modelled from the spec: the Tab class and its driver-event
subscription are not under src/.  Spec: "`onNavigated(frame)` is invoked
by the Tab's driver-event subscription and must reset FrameContext to
main frame whenever `frame` is the top-level frame", synchronously with
the navigation event. -/
def onNavigated (isTopLevel : Bool) (st : TabFrameState) : TabFrameState :=
  if isTopLevel then { st with currentFrame := none } else st

/-! ## Waiting for requests/responses
(src/tools/networkInterception.ts, waitForRequest / waitForResponse) -/

/-- A timestamped network event as seen by a pending wait. -/
structure TimedEvent where
  time : Nat
  url : String
  deriving Repr, DecidableEq

/-- Outcome of a pending wait. -/
inductive WaitResult where
  | matched : TimedEvent → WaitResult
  | timedOut : WaitResult
  deriving Repr, DecidableEq

/-- Modelled from the spec: the race between the event subscription and
the deadline timer lives in the external driver call
(`page.waitForResponse`), not under src/.  Spec: a PendingWait is
"resolved by the first RequestLog event matching the predicate at or
before the deadline; otherwise rejects with a timeout at the deadline".
Events are given in arrival order; the URL predicate is the same
`*`-wildcard pattern the tool forwards to the driver. -/
def waitForResponse (pattern : String) (timeout : Nat)
    (events : List TimedEvent) : WaitResult :=
  match events.find? (fun e => urlFilterMatches pattern e.url && decide (e.time < timeout)) with
  | some e => .matched e
  | none => .timedOut

/-- The effective timeout of the wait tools: `params.timeout || 30000`
(JavaScript `||`, so an explicit `0` also falls back to the default). -/
def effectiveTimeout (timeout : Option Nat) : Nat :=
  match timeout with
  | some t => if t = 0 then 30000 else t
  | none => 30000

/-! ## Timeout error messages
(src/tools/networkInterception.ts:190-192, wait tools in src/tools/advancedWaiting.ts) -/

/-- The message of the error thrown by `browser_wait_for_request` on
timeout: `Timeout waiting for request matching: <urlPattern>`. -/
def waitForRequestTimeoutMessage (urlPattern : String) : String :=
  "Timeout waiting for request matching: " ++ urlPattern

/-- The message of the error thrown by `browser_wait_for_selector` on
timeout: `Timeout waiting for selector "<selector>" to be <state>`
(state defaulting to `visible`). -/
def waitForSelectorTimeoutMessage (selector : String) (state : Option String) : String :=
  "Timeout waiting for selector \x22" ++ selector ++ "\x22 to be " ++ state.getD "visible"

/-- The `browser_wait_for_request` action seen from the outside: on a
match it returns the request data, on a driver timeout it throws the
rewrapped error; the configured timeout only feeds the driver call. -/
def waitForRequestAction (urlPattern : String) (timeout : Option Nat)
    (events : List TimedEvent) : Except String TimedEvent :=
  match waitForResponse urlPattern (effectiveTimeout timeout) events with
  | .matched e => .ok e
  | .timedOut => .error (waitForRequestTimeoutMessage urlPattern)

/-- Is `needle` a contiguous subsequence of `hay`? -/
def containsSeq (needle : List Char) : List Char → Bool
  | [] => needle.isPrefixOf []
  | x :: xs => needle.isPrefixOf (x :: xs) || containsSeq needle xs

/-! ## Storage (src/tools/storage.ts) -/

/-- A DOM Storage area: insertion-ordered key/value pairs.
`setItem` updates in place when the key exists, appends otherwise. -/
def setItem (s : List (String × String)) (k v : String) : List (String × String) :=
  setKey s k v

/-- `removeItem`: drop the entry with the given key. -/
def removeItem (s : List (String × String)) (k : String) : List (String × String) :=
  s.filter fun p => !(p.1 == k)

/-- The two storage areas of a page. -/
structure Stores where
  localStore : List (String × String)
  sessionStore : List (String × String)
  deriving Repr, DecidableEq

/-- `type` argument of get/set storage: `local` or `session`. -/
inductive StorageType where
  | local : StorageType
  | session : StorageType
  deriving Repr, DecidableEq

/-- `type` argument of clear storage: `local`, `session` or `all`
(the default). -/
inductive ClearType where
  | local : ClearType
  | session : ClearType
  | all : ClearType
  deriving Repr, DecidableEq

/-- The page-side loop of `getStorage` (src/tools/storage.ts:54-67):
walk the storage area in order and assign `data[key] = value` for each
entry. -/
def getStorageArea (s : List (String × String)) : List (String × String) :=
  s.foldl (fun data kv => setKey data kv.1 kv.2) []

/-- `getStorage` on the selected storage type. -/
def getStorage (t : StorageType) (st : Stores) : List (String × String) :=
  match t with
  | .local => getStorageArea st.localStore
  | .session => getStorageArea st.sessionStore

/-- The page-side body of `setStorage` (src/tools/storage.ts:114-122):
optionally clear, then `setItem` each entry of `data` in order. -/
def setStorageArea (s : List (String × String)) (data : List (String × String))
    (clear : Option Bool) : List (String × String) :=
  let s := if clear = some true then [] else s
  data.foldl (fun st kv => setItem st kv.1 kv.2) s

/-- `setStorage` on the selected storage type. -/
def setStorage (t : StorageType) (data : List (String × String))
    (clear : Option Bool) (st : Stores) : Stores :=
  match t with
  | .local => { st with localStore := setStorageArea st.localStore data clear }
  | .session => { st with sessionStore := setStorageArea st.sessionStore data clear }

/-- The page-side body of `clearStorage` (src/tools/storage.ts:183-217):
with a `keys` list, remove those keys from the selected area(s);
without one, clear the selected area(s) entirely. -/
def clearStorage (t : ClearType) (keys : Option (List String)) (st : Stores) : Stores :=
  match keys with
  | some ks =>
      let st :=
        if t = .local || t = .all then
          { st with localStore := ks.foldl removeItem st.localStore }
        else st
      if t = .session || t = .all then
        { st with sessionStore := ks.foldl removeItem st.sessionStore }
      else st
  | none =>
      let st :=
        if t = .local || t = .all then { st with localStore := [] } else st
      if t = .session || t = .all then { st with sessionStore := [] } else st

/-- A `Stores` with both areas empty. -/
def emptyStores : Stores := ⟨[], []⟩

/-- The `clearStorage` type selecting exactly one storage type. -/
def clearTypeOf (t : StorageType) : ClearType :=
  match t with
  | .local => .local
  | .session => .session

/-! ## Post-execution synchronization flags

Each handler returns `captureSnapshot` and `waitForNetwork` as part of
its per-call result object; the dispatcher reads them from the result. -/

/-- The synchronization part of a handler's result. -/
structure SyncFlags where
  captureSnapshot : Bool
  waitForNetwork : Bool
  deriving Repr, DecidableEq

/-- The flags returned by `browser_wait_for_load_state`
(src/tools/advancedWaiting.ts): `captureSnapshot: false`,
`waitForNetwork: params.state === 'networkidle'`. -/
def waitForLoadStateSync (state : Option String) : SyncFlags :=
  { captureSnapshot := false, waitForNetwork := state == some "networkidle" }

/-- The flags returned by `browser_set_storage` (src/tools/storage.ts):
`captureSnapshot` is the factory's mode flag, `waitForNetwork: false`. -/
def setStorageSync (captureSnapshotMode : Bool) : SyncFlags :=
  { captureSnapshot := captureSnapshotMode, waitForNetwork := false }

/-! ## Helper lemmas -/

theorem filter_filter_comp {α : Type} (p q : α → Bool) (l : List α) :
    (l.filter p).filter q = l.filter fun a => p a && q a := by
  induction l with
  | nil => rfl
  | cons x xs ih =>
      by_cases hp : p x <;> by_cases hq : q x <;>
        simp [List.filter_cons, hp, hq, ih]

/-! ## C1: capability-gated active tool set -/

/-- C1: for every capability set `C` and registered descriptor list, the
active set contains a descriptor iff its required capability is in
`C ∪ {core}`; the active set is a subsequence of the registration list
(order preserved); the advertised names are exactly the active set's
names; concretely, the `network` capability enables all six
networkInterception tools and the empty capability set enables none of
them. -/
theorem buildActiveSet_correct (C : List String) (tools : List ToolDescriptor) :
    (∀ t, t ∈ buildActiveSet C tools ↔
        t ∈ tools ∧ (t.capability ∈ C ∨ t.capability = "core"))
    ∧ (buildActiveSet C tools).Sublist tools
    ∧ (∀ n, n ∈ advertisedToolNames C tools ↔
        ∃ t, t ∈ tools ∧ t.name = n ∧ (t.capability ∈ C ∨ t.capability = "core"))
    ∧ buildActiveSet ["network"] networkInterceptionTools = networkInterceptionTools
    ∧ buildActiveSet [] networkInterceptionTools = [] := by
  refine ⟨?_, ?_, ?_, ?_, ?_⟩
  · intro t
    simp [buildActiveSet, List.mem_filter, List.elem_iff]
  · exact List.filter_sublist tools
  · intro n
    constructor
    · intro hn
      rcases List.mem_map.mp hn with ⟨t, ht, rfl⟩
      rcases List.mem_filter.mp ht with ⟨htools, hcap⟩
      refine ⟨t, htools, rfl, ?_⟩
      simpa [List.elem_iff] using hcap
    · rintro ⟨t, htools, rfl, hcap⟩
      refine List.mem_map.mpr ⟨t, ?_, rfl⟩
      refine List.mem_filter.mpr ⟨htools, ?_⟩
      simpa [List.elem_iff] using hcap
  · decide
  · decide

/-! ## C2: request log filtering -/

/-- C2: for every filter, `getRequests` equals a single filter of the log
by the conjunction of the supplied clauses; hence it is a subsequence of
the log (arrival order preserved) and contains exactly the entries
satisfying every supplied clause. -/
theorem getRequests_correct (f : RequestFilter) (log : List RequestEntry) :
    getRequests f log = log.filter (fun r => satisfiesFilter f r)
    ∧ (getRequests f log).Sublist log
    ∧ (∀ r, r ∈ getRequests f log ↔ r ∈ log ∧ satisfiesFilter f r = true) := by
  have hmain : getRequests f log = log.filter (fun r => satisfiesFilter f r) := by
    rcases f with ⟨u, m, ty⟩
    cases u <;> cases m <;> cases ty <;>
      simp [getRequests, satisfiesFilter, filter_filter_comp, Bool.and_assoc,
        Bool.and_comm, Bool.and_left_comm]
  refine ⟨hmain, ?_, ?_⟩
  · rw [hmain]; exact List.filter_sublist log
  · intro r
    rw [hmain]
    simp [List.mem_filter]

/-! ## C3: wait-for-response semantics -/

theorem find?_first_split {α : Type} {p : α → Bool} {l : List α} {a : α}
    (h : l.find? p = some a) :
    p a = true ∧ ∃ pre post, l = pre ++ a :: post ∧ ∀ x ∈ pre, p x = false := by
  induction l with
  | nil => simp [List.find?] at h
  | cons x xs ih =>
      rw [List.find?] at h
      by_cases hx : p x
      · rw [hx] at h
        simp only [Option.some.injEq] at h
        subst h
        exact ⟨hx, [], xs, rfl, by simp⟩
      · rw [Bool.not_eq_true] at hx
        rw [hx] at h
        rcases ih h with ⟨hpa, pre, post, hsplit, hpre⟩
        refine ⟨hpa, x :: pre, post, by simp [hsplit], ?_⟩
        intro y hy
        rcases List.mem_cons.mp hy with rfl | hy
        · exact hx
        · exact hpre y hy

/-- C3: a wait that resolves does so with a response that is in the log,
matches the pattern, and arrived before the timeout, and every earlier
log entry either fails the pattern or arrived too late (so it is the
first in-time match); if no matching response arrives in time the wait
times out; and events at or after the deadline never change the outcome
of the wait — in particular they cannot resolve a wait that has already
timed out. -/
theorem waitForResponse_correct (p : String) (t : Nat)
    (events late : List TimedEvent) :
    (∀ e, waitForResponse p t events = .matched e →
        urlFilterMatches p e.url = true ∧ e.time < t ∧
        ∃ pre post, events = pre ++ e :: post ∧
          ∀ x ∈ pre, ¬(urlFilterMatches p x.url = true ∧ x.time < t))
    ∧ ((∀ e ∈ events, urlFilterMatches p e.url = true → ¬ e.time < t) →
        waitForResponse p t events = .timedOut)
    ∧ ((∀ e ∈ late, t ≤ e.time) →
        waitForResponse p t (events ++ late) = waitForResponse p t events) := by
  refine ⟨?_, ?_, ?_⟩
  · intro e he
    unfold waitForResponse at he
    rcases hfind : events.find?
        (fun e => urlFilterMatches p e.url && decide (e.time < t)) with _ | e'
    · rw [hfind] at he; simp at he
    · rw [hfind] at he
      simp only [WaitResult.matched.injEq] at he
      subst he
      rcases find?_first_split hfind with ⟨hpa, pre, post, hsplit, hpre⟩
      rw [Bool.and_eq_true, decide_eq_true_eq] at hpa
      refine ⟨hpa.1, hpa.2, pre, post, hsplit, ?_⟩
      intro x hx hcontra
      have := hpre x hx
      rw [Bool.and_eq_false_iff] at this
      rcases this with h1 | h2
      · rw [hcontra.1] at h1; simp at h1
      · exact absurd hcontra.2 (by simpa using h2)
  · intro hnone
    unfold waitForResponse
    rw [List.find?_eq_none.mpr]
    intro e he
    simp only [Bool.and_eq_true, decide_eq_true_eq, not_and]
    intro hurl
    exact hnone e he hurl
  · intro hlate
    unfold waitForResponse
    rw [List.find?_append]
    have : late.find? (fun e => urlFilterMatches p e.url && decide (e.time < t)) = none := by
      rw [List.find?_eq_none]
      intro e he
      simp only [Bool.and_eq_true, decide_eq_true_eq, not_and]
      intro _
      exact Nat.not_lt.mpr (hlate e he)
    rw [this]
    cases events.find? (fun e => urlFilterMatches p e.url && decide (e.time < t)) <;> rfl

/-- Witness for C3: a response matching `a*` that arrives at time 12,
after a deadline of 10, leaves the outcome of the wait unchanged. -/
theorem waitForResponse_correct_witness :
    waitForResponse "a*" 10 ([⟨3, "z"⟩] ++ [⟨12, "ab"⟩]) =
      waitForResponse "a*" 10 [⟨3, "z"⟩] :=
  (waitForResponse_correct "a*" 10 [⟨3, "z"⟩] [⟨12, "ab"⟩]).2.2 (by decide)

/-! ## C4: frame context selection and navigation reset -/

/-- C4: after `switchToFrame` succeeds on frame `f`, a `frameEvaluate`
with no explicit frame argument runs in `f`; after a top-level
navigation the frame context is cleared, so such a call runs in the main
frame again — whatever frame was selected before. -/
theorem frameContext_correct (main : Nat) :
    (∀ st st' f, switchToFrame (some f) st = .ok st' →
        frameEvaluateTarget none st' main = f)
    ∧ (∀ st, frameEvaluateTarget none (onNavigated true st) main = main)
    ∧ (∀ st, (onNavigated true st).currentFrame = none)
    ∧ (∀ st, onNavigated false st = st) := by
  refine ⟨?_, ?_, ?_, ?_⟩
  · intro st st' f h
    simp only [switchToFrame, Except.ok.injEq] at h
    subst h
    rfl
  · intro st; rfl
  · intro st; rfl
  · intro st; rfl

/-- Witness for C4: switching to frame 2 from a fresh state makes the
implicit evaluate target frame 2. -/
theorem frameContext_correct_witness :
    frameEvaluateTarget none ⟨some 2⟩ 0 = 2 :=
  (frameContext_correct 0).1 ⟨none⟩ ⟨some 2⟩ 2 rfl

/-! ## C5: route decision application -/

/-- C5: the installed interception callback applies the handler's
decision: a true `abort` flag aborts the request; a `fulfill` object
produces a synthetic response carrying exactly the given status, body
and headers, with a (non-empty) `contentType` merged into the headers
under the `content-type` key (an empty headers object being created
first when none was given); a `continue` object forwards the request
with the given URL/method/headers/postData overrides. -/
theorem applyRoute_decisions :
    (∀ h, h.abort = some true → applyRoute h = .abort)
    ∧ (∀ h f, h.abort ≠ some true → h.fulfill = some f → f.contentType = none →
        applyRoute h = .fulfill f.status f.body f.headers)
    ∧ (∀ h f ct, h.abort ≠ some true → h.fulfill = some f →
        f.contentType = some ct → ct ≠ "" →
        applyRoute h = .fulfill f.status f.body
          (some (setKey (f.headers.getD []) "content-type" ct)))
    ∧ (∀ h c, h.abort ≠ some true → h.fulfill = none → h.cont = some c →
        applyRoute h = .cont (some c)) := by
  refine ⟨?_, ?_, ?_, ?_⟩
  · intro h habort
    simp [applyRoute, habort]
  · intro h f habort hful hct
    simp [applyRoute, habort, hful, hct]
  · intro h f ct habort hful hct hne
    simp [applyRoute, habort, hful, hct, hne]
  · intro h c habort hful hcont
    simp [applyRoute, habort, hful, hcont]

/-- Witness for C5: a fulfill handler with status 200, body `ok` and
contentType `application/json` produces a fulfill action whose headers
carry the content type. -/
theorem applyRoute_decisions_witness :
    applyRoute ⟨none, some ⟨some 200, some "ok", none, some "application/json"⟩, none⟩ =
      .fulfill (some 200) (some "ok") (some [("content-type", "application/json")]) :=
  applyRoute_decisions.2.2.1
    ⟨none, some ⟨some 200, some "ok", none, some "application/json"⟩, none⟩
    ⟨some 200, some "ok", none, some "application/json"⟩
    "application/json" (by decide) rfl rfl (by decide)

/-! ## C10: decision priority -/

/-- C10: the decision kinds are evaluated in the fixed order abort,
fulfill, continue: a true abort flag wins over any fulfill or continue
also supplied; with abort not set (absent or false) a fulfill object is
honoured; and a handler with none of the three set continues the request
unmodified. -/
theorem applyRoute_priority :
    (∀ f c, applyRoute ⟨some true, f, c⟩ = .abort)
    ∧ (∀ h f, h.abort ≠ some true → h.fulfill = some f →
        ∃ hs, applyRoute h = .fulfill f.status f.body hs)
    ∧ (∀ a, a ≠ some true → applyRoute ⟨a, none, none⟩ = .cont none) := by
  refine ⟨?_, ?_, ?_⟩
  · intro f c
    simp [applyRoute]
  · intro h f habort hful
    rcases hct : f.contentType with _ | ct
    · exact ⟨f.headers, by simp [applyRoute, habort, hful, hct]⟩
    · by_cases hne : ct = ""
      · exact ⟨f.headers, by simp [applyRoute, habort, hful, hct, hne]⟩
      · exact ⟨some (setKey (f.headers.getD []) "content-type" ct),
          by simp [applyRoute, habort, hful, hct, hne]⟩
  · intro a ha
    simp [applyRoute, ha]

/-- Witness for C10: with abort unset and a fulfill object supplied
alongside a continue object, the request is fulfilled (not continued). -/
theorem applyRoute_priority_witness :
    ∃ hs, applyRoute ⟨none, some ⟨some 404, none, none, none⟩,
        some ⟨none, none, none, none⟩⟩ = .fulfill (some 404) none hs :=
  applyRoute_priority.2.1
    ⟨none, some ⟨some 404, none, none, none⟩, some ⟨none, none, none, none⟩⟩
    ⟨some 404, none, none, none⟩ (by decide) rfl

/-! ## C6: wildcard scope in URL filter patterns -/

theorem mem_suffixes_append (mid s : List Char) : s ∈ suffixes (mid ++ s) := by
  induction mid with
  | nil =>
      cases s with
      | nil => simp [suffixes]
      | cons x xs => simp [suffixes]
  | cons x xs ih =>
      simp only [List.cons_append, suffixes]
      exact List.mem_cons_of_mem _ ih

theorem matchHere_anyStar_append (ts : List RegexTok) (mid s : List Char)
    (h : matchHere ts s = true) :
    matchHere (.anyStar :: ts) (mid ++ s) = true := by
  rw [matchHere]
  exact List.any_eq_true.mpr ⟨s, mem_suffixes_append mid s, h⟩

/-- C6 counterexample: the URL filter built from the pattern `a*b`
accepts the URL `a/b`, so its single `*` matches across a `/`; the
segment-respecting glob matcher written from the spec's words rejects
that URL. -/
theorem urlFilter_star_crosses_segments_cex :
    urlFilterMatches "a*b" "a/b" = true ∧ globMatchSpec "a*b" "a/b" = false := by
  decide

/-- C6 amended: in the request/response URL filters every `*` of the
pattern is converted to the regex `.*`, so a single `*` matches an
arbitrary character sequence — including sequences containing `/` — and
`**` behaves no differently from `*`. -/
theorem urlFilter_star_matches_any (mid : List Char) :
    urlFilterMatches "a*b" ⟨'a' :: (mid ++ ['b'])⟩ = true
    ∧ urlFilterMatches "a**b" ⟨'a' :: (mid ++ ['b'])⟩ = true := by
  have h1 : matchHere [RegexTok.lit 'b'] ['b'] = true := by decide
  have h2 : matchHere [RegexTok.anyStar, RegexTok.lit 'b'] ['b'] = true := by decide
  constructor
  · show regexTest (globToRegex "a*b".toList) ('a' :: (mid ++ ['b'])) = true
    have hg : globToRegex "a*b".toList =
        [RegexTok.lit 'a', RegexTok.anyStar, RegexTok.lit 'b'] := by decide
    rw [hg]
    have hm : matchHere [RegexTok.lit 'a', RegexTok.anyStar, RegexTok.lit 'b']
        ('a' :: (mid ++ ['b'])) = true := by
      simp [matchHere]
      exact ⟨['b'], mem_suffixes_append mid ['b'], h1⟩
    exact List.any_eq_true.mpr ⟨'a' :: (mid ++ ['b']), by simp [suffixes], hm⟩
  · show regexTest (globToRegex "a**b".toList) ('a' :: (mid ++ ['b'])) = true
    have hg : globToRegex "a**b".toList =
        [RegexTok.lit 'a', RegexTok.anyStar, RegexTok.anyStar, RegexTok.lit 'b'] := by decide
    rw [hg]
    have hm : matchHere
        [RegexTok.lit 'a', RegexTok.anyStar, RegexTok.anyStar, RegexTok.lit 'b']
        ('a' :: (mid ++ ['b'])) = true := by
      simp [matchHere]
      exact ⟨['b'], mem_suffixes_append mid ['b'], ['b'], by decide, h1⟩
    exact List.any_eq_true.mpr ⟨'a' :: (mid ++ ['b']), by simp [suffixes], hm⟩

/-! ## C7: post-execution synchronization flags -/

/-- C7 counterexample: the synchronization behavior is not determined
solely by a per-tool declared policy — `browser_wait_for_load_state`
computes its `waitForNetwork` flag from its input, returning different
synchronization for different arguments of the same tool. -/
theorem syncFlags_input_dependent_cex :
    (waitForLoadStateSync (some "networkidle")).waitForNetwork = true
    ∧ (waitForLoadStateSync (some "load")).waitForNetwork = false := by
  decide

/-- C7 amended: the synchronization flags are part of each handler's
returned result rather than a descriptor-level policy; `setStorage`
returns fixed flags independent of its input (snapshot per the factory
mode, never waiting for network), while `waitForLoadState` never
captures a snapshot but waits for network idle exactly when its `state`
argument is `networkidle`. -/
theorem syncFlags_handler_result :
    (∀ state, (waitForLoadStateSync state).waitForNetwork = true ↔
        state = some "networkidle")
    ∧ (∀ state, (waitForLoadStateSync state).captureSnapshot = false)
    ∧ (∀ b, (setStorageSync b).waitForNetwork = false
        ∧ (setStorageSync b).captureSnapshot = b) := by
  refine ⟨?_, ?_, ?_⟩
  · intro state
    simp [waitForLoadStateSync]
  · intro state; rfl
  · intro b; exact ⟨rfl, rfl⟩

/-! ## C8: timeout error content -/

theorem isPrefixOf_append_self (n post : List Char) :
    n.isPrefixOf (n ++ post) = true := by
  induction n with
  | nil => simp [List.isPrefixOf]
  | cons x xs ih => simp [List.isPrefixOf, ih]

theorem containsSeq_of_suffix_part (n pre rest : List Char)
    (h : n.isPrefixOf rest = true) :
    containsSeq n (pre ++ rest) = true := by
  induction pre with
  | nil =>
      cases rest with
      | nil => simpa [containsSeq] using h
      | cons x xs => simp [containsSeq, h]
  | cons x xs ih =>
      simp [containsSeq, ih]

/-- C8 counterexample: a `browser_wait_for_request` call configured with
timeout 12345 that times out fails with the message
`Timeout waiting for request matching: <pattern>`, which names the
pattern but does not contain the configured timeout value `12345`. -/
theorem timeoutMessage_no_timeout_cex :
    waitForRequestAction "http://a/x" (some 12345) [] =
      .error "Timeout waiting for request matching: http://a/x"
    ∧ containsSeq "12345".toList
        (waitForRequestTimeoutMessage "http://a/x").toList = false := by
  constructor
  · rfl
  · decide

/-- C8 amended: a wait-style operation that exceeds its deadline fails
with an error (no partial result), and the error message includes the
pattern or selector waited on — but not the configured timeout value. -/
theorem timeoutMessage_names_pattern (p selector : String) (t : Option Nat)
    (state : Option String) :
    (∀ e, waitForRequestAction p t [] ≠ .ok e)
    ∧ waitForRequestAction p t [] = .error (waitForRequestTimeoutMessage p)
    ∧ containsSeq p.toList (waitForRequestTimeoutMessage p).toList = true
    ∧ containsSeq selector.toList
        (waitForSelectorTimeoutMessage selector state).toList = true := by
  have hreq : waitForRequestAction p t [] = .error (waitForRequestTimeoutMessage p) := by
    simp [waitForRequestAction, waitForResponse]
  refine ⟨?_, hreq, ?_, ?_⟩
  · intro e he
    rw [hreq] at he
    exact Except.noConfusion he
  · rw [waitForRequestTimeoutMessage]
    rw [show ("Timeout waiting for request matching: " ++ p).toList =
      "Timeout waiting for request matching: ".toList ++ p.toList from rfl]
    exact containsSeq_of_suffix_part p.toList _ p.toList
      (by simp [isPrefixOf_append_self p.toList []])
  · rw [waitForSelectorTimeoutMessage]
    rw [show ("Timeout waiting for selector \x22" ++ selector ++ "\x22 to be "
          ++ state.getD "visible").toList =
        (("Timeout waiting for selector \x22".toList ++ selector.toList) ++
          "\x22 to be ".toList) ++ (state.getD "visible").toList from rfl,
      List.append_assoc, List.append_assoc]
    exact containsSeq_of_suffix_part selector.toList _ _
      (isPrefixOf_append_self selector.toList _)

/-! ## C9: storage set/get/clear round trip -/

theorem setKey_append_of_not_mem (s : List (String × String)) (k v : String)
    (h : ∀ p ∈ s, p.1 ≠ k) : setKey s k v = s ++ [(k, v)] := by
  rw [setKey, if_neg]
  simp only [List.any_eq_true, not_exists, not_and]
  intro p hp
  simp [h p hp]

theorem foldl_setItem_of_disjoint (m : List (String × String)) :
    ∀ s : List (String × String),
    (∀ kv ∈ m, ∀ p ∈ s, p.1 ≠ kv.1) → (m.map Prod.fst).Nodup →
    m.foldl (fun st kv => setItem st kv.1 kv.2) s = s ++ m := by
  induction m with
  | nil => intro s _ _; simp
  | cons kv rest ih =>
      intro s hdisj hnodup
      rw [List.foldl_cons]
      have hset : setItem s kv.1 kv.2 = s ++ [kv] := by
        rw [setItem, setKey_append_of_not_mem]
        intro p hp
        exact hdisj kv (List.mem_cons_self kv rest) p hp
      rw [hset]
      rw [List.map_cons, List.nodup_cons] at hnodup
      have : rest.foldl (fun st kv => setItem st kv.1 kv.2) (s ++ [kv]) =
          (s ++ [kv]) ++ rest := by
        apply ih
        · intro kv2 h2 p hp
          rcases List.mem_append.mp hp with hps | hpk
          · exact hdisj kv2 (List.mem_cons_of_mem kv h2) p hps
          · rcases List.mem_singleton.mp hpk with rfl
            intro hk
            exact hnodup.1 (hk ▸ List.mem_map_of_mem Prod.fst h2)
        · exact hnodup.2
      rw [this, List.append_assoc, List.singleton_append]

/-- C9: for each storage type, setting a mapping with pairwise distinct
keys into an empty store and reading it back returns exactly that
mapping (entries in insertion order), and reading after a clear of that
storage type returns the empty mapping. -/
theorem storage_roundtrip (t : StorageType) (m : List (String × String))
    (hnodup : (m.map Prod.fst).Nodup) :
    getStorage t (setStorage t m none emptyStores) = m
    ∧ ∀ st, getStorage t (clearStorage (clearTypeOf t) none st) = [] := by
  have harea : setStorageArea [] m none = m := by
    rw [setStorageArea]
    simpa using foldl_setItem_of_disjoint m [] (by simp) hnodup
  have hget : getStorageArea m = m := by
    rw [getStorageArea]
    simpa using foldl_setItem_of_disjoint m [] (by simp) hnodup
  constructor
  · cases t <;> simp [getStorage, setStorage, emptyStores, harea, hget]
  · intro st
    cases t <;> simp [getStorage, clearStorage, clearTypeOf, getStorageArea]

/-- Witness for C9: setting `{a: 1}` into empty local storage and
reading local storage back returns `{a: 1}`. -/
theorem storage_roundtrip_witness :
    getStorage .local (setStorage .local [("a", "1")] none emptyStores) = [("a", "1")] :=
  (storage_roundtrip .local [("a", "1")] (by decide)).1

/-- Witness for C8: for selector `sel` with the default state, the
timeout message contains the selector. -/
theorem timeoutMessage_names_pattern_witness :
    containsSeq "sel".toList (waitForSelectorTimeoutMessage "sel" none).toList = true :=
  (timeoutMessage_names_pattern "p" "sel" none none).2.2.2
